import Mathlib

set_option autoImplicit false

/-!
Shallow embedding of the asynchronous job execution and result/log delivery
subsystem of src/app.py (trip_Recommend): the result store, the log queue,
the StreamToQueue writer, the analyze / get_logs / get_crew_result handlers,
and the ThreadPoolExecutor worker behaviour, together with theorems settling
the frozen claims about them.
-/

/-- A request field value as it comes out of a JSON body or a query string:
Python None is modelled as none, a string value as some. -/
abbrev FieldVal := Option String

/-- Python truthiness of a field value: None and the empty string are falsy,
every other string is truthy. Used by the all check in analyze. -/
def truthy : FieldVal → Bool
  | none => false
  | some s => s != ""

/-- The dictionary key built on the write path of create_crewai_setup
(app.py line 271): the tuple (category, trip_type, month, budget, num_people). -/
def writeKey (category trip_type month budget num_people : FieldVal) :
    FieldVal × FieldVal × FieldVal × FieldVal × FieldVal :=
  (category, trip_type, month, budget, num_people)

/-- The dictionary key built on the read path of get_crew_result
(app.py line 309): the tuple (category, trip_type, month, budget, num_people). -/
def readKey (category trip_type month budget num_people : FieldVal) :
    FieldVal × FieldVal × FieldVal × FieldVal × FieldVal :=
  (category, trip_type, month, budget, num_people)

/-- The key type of crew_result_store. -/
abbrev JobKey := FieldVal × FieldVal × FieldVal × FieldVal × FieldVal

/-- crew_result_store, the global Python dict (app.py line 201), as an
association list holding at most one entry per key. -/
abbrev Store := List (JobKey × String)

/-- Python dict lookup: the value stored under k, if any. -/
def Store.get (s : Store) (k : JobKey) : Option String :=
  (s.find? (fun p => decide (p.1 = k))).map Prod.snd

/-- Python dict assignment store[k] = v: any previous entry for k is
replaced, every other key is untouched. -/
def Store.insert (s : Store) (k : JobKey) (v : String) : Store :=
  s.filter (fun p => decide (p.1 ≠ k)) ++ [(k, v)]

/-- Number of entries the store holds for key k. -/
def Store.countKey (s : Store) (k : JobKey) : Nat :=
  (s.filter (fun p => decide (p.1 = k))).length

instance : DecidableEq JobKey := instDecidableEqProd

instance : DecidableEq (JobKey × String) := instDecidableEqProd

/-- The portion of process state a job touches: the result store, plus an
instrumentation trace recording every store write (every ResultStore.put)
performed, so that puts can be counted. -/
structure ExecState where
  store : Store
  puts : List (JobKey × String)
deriving DecidableEq

/-- create_crewai_setup (app.py lines 223-273). The agent construction and
the travel_crew.kickoff() call are the opaque external JobFunction
collaborator; the kickoff parameter stands for that call: ok r when it
returns the result r, error e when it raises a failure with description e.
A raise aborts the function body before the store write is reached, which
the Except short circuit models; on normal return the result is stored under
the write-path key and returned. -/
def create_crewai_setup (kickoff : Except String String)
    (category budget num_people trip_type month : FieldVal)
    (st : ExecState) : Except String (String × ExecState) := do
  let crew_result ← kickoff
  let key := writeKey category trip_type month budget num_people
  pure (crew_result, ⟨st.store.insert key crew_result,
                      st.puts ++ [(key, crew_result)]⟩)

/-- A worker of the ThreadPoolExecutor (app.py line 207) running one
submitted callable: a normal return yields the updated state, while a raise
is captured into the discarded Future (the Option String component) instead
of propagating, so the process keeps running; the state stays as the
callable left it, and the only raising point of create_crewai_setup
precedes its only store write, so the state is unchanged on a raise. -/
def executorRunJob (job : ExecState → Except String (String × ExecState))
    (st : ExecState) : ExecState × Option String :=
  match job st with
  | .ok (_, st') => (st', none)
  | .error e => (st, some e)

/-- A Flask jsonify response: the JSON object as a field list, plus the
HTTP status code (200 unless stated otherwise). -/
structure HttpResponse where
  body : List (String × String)
  code : Nat
deriving DecidableEq

/-- The argument tuple handed to executor.submit together with
create_crewai_setup (app.py line 289), in positional order:
(category, budget, num_people, trip_type, month). -/
abbrev SubmitArgs := FieldVal × FieldVal × FieldVal × FieldVal × FieldVal

/-- analyze (app.py lines 275-290). Validation mirrors
if not all([category, budget, num_people, trip_type, month]); on failure it
returns the error body with code 400, otherwise it hands the job arguments
to the executor (recorded in the middle component; none when no job is
created) and returns at once. The ExecState passes through untouched: the
handler returns without running the job. -/
def analyze (category budget num_people trip_type month : FieldVal)
    (st : ExecState) : HttpResponse × Option SubmitArgs × ExecState :=
  if !(truthy category && truthy budget && truthy num_people &&
       truthy trip_type && truthy month) then
    (⟨[("error", "There is a missing identity")], 400⟩, none, st)
  else
    (⟨[("status", "Processing started")], 200⟩,
     some (category, budget, num_people, trip_type, month), st)

/-- get_crew_result (app.py lines 300-311): builds the read-path key and
queries crew_result_store with default the sentinel
"Result not available yet.", returning the crew_result field value of the
response together with the untouched store. -/
def get_crew_result (category budget num_people trip_type month : FieldVal)
    (store : Store) : String × Store :=
  let key := readKey category trip_type month budget num_people
  let result := (store.get key).getD "Result not available yet."
  (result, store)

/-- The set of characters Python str.strip() removes with no arguments
(ASCII whitespace; the diagnostics the app captures are ASCII). -/
def pyIsSpace (c : Char) : Bool :=
  c == ' ' || c == '\t' || c == '\n' || c == '\r' || c == '\x0b' || c == '\x0c'

/-- Python str.strip() with no arguments: remove leading and trailing
whitespace. -/
def pyStrip (s : String) : String :=
  String.mk (((s.toList.dropWhile pyIsSpace).reverse.dropWhile pyIsSpace).reverse)

/-- StreamToQueue.write (app.py lines 213-215): put the stripped message on
the queue unless it is empty after stripping (Python string truthiness). -/
def StreamToQueue.write (q : List String) (message : String) : List String :=
  if pyStrip message ≠ "" then q ++ [pyStrip message] else q

/-- The while loop of get_logs (app.py lines 295-297): pop entries into the
logs list until the queue is empty. Returns the logs list and the leftover
queue. -/
def drainLoop : List String → List String → List String × List String
  | [], logs => (logs, [])
  | x :: xs, logs => drainLoop xs (logs ++ [x])

/-- get_logs (app.py lines 292-298): drain the whole queue, oldest first. -/
def get_logs (q : List String) : List String × List String :=
  drainLoop q []

theorem Store.get_insert (s : Store) (k : JobKey) (v : String) :
    (s.insert k v).get k = some v := by
  unfold Store.insert Store.get
  rw [List.find?_append]
  have h1 : (s.filter (fun p => decide (p.1 ≠ k))).find?
      (fun p => decide (p.1 = k)) = none := by
    rw [List.find?_eq_none]
    intro p hp
    have hmem := List.of_mem_filter hp
    simp only [decide_not, Bool.not_eq_true] at hmem ⊢
    simpa using hmem
  rw [h1]
  simp [List.find?]

theorem Store.countKey_insert (s : Store) (k : JobKey) (v : String) :
    (s.insert k v).countKey k = 1 := by
  unfold Store.insert Store.countKey
  rw [List.filter_append]
  have h1 : (s.filter (fun p => decide (p.1 ≠ k))).filter
      (fun p => decide (p.1 = k)) = [] := by
    rw [List.filter_eq_nil_iff]
    intro p hp
    have hmem := List.of_mem_filter hp
    simp only [decide_not, Bool.not_eq_true] at hmem ⊢
    simpa using hmem
  rw [h1]
  simp

theorem drainLoop_spec (q acc : List String) :
    drainLoop q acc = (acc ++ q, []) := by
  induction q generalizing acc with
  | nil => simp [drainLoop]
  | cons x xs ih => simp [drainLoop, ih]

theorem get_logs_spec (q : List String) : get_logs q = (q, []) := by
  simp [get_logs, drainLoop_spec]

theorem Store.foldl_insert_last (k : JobKey) (vs : List String) :
    ∀ (s : Store) (v : String), vs.getLast? = some v →
      ((vs.foldl (fun st w => st.insert k w) s).get k = some v) ∧
      ((vs.foldl (fun st w => st.insert k w) s).countKey k = 1) := by
  induction vs with
  | nil => intro s v h; simp at h
  | cons a as ih =>
    intro s v h
    cases as with
    | nil =>
      have hv : a = v := by
        simp at h
        exact h
      subst hv
      exact ⟨Store.get_insert s k a, Store.countKey_insert s k a⟩
    | cons b bs =>
      rw [List.getLast?_cons_cons] at h
      exact ih (s.insert k a) v h

theorem dropWhile_head_false (p : Char → Bool) (l : List Char) :
    ∀ (x : Char) (xs : List Char), l.dropWhile p = x :: xs → p x = false := by
  induction l with
  | nil => intro x xs h; simp [List.dropWhile] at h
  | cons a as ih =>
    intro x xs h
    rw [List.dropWhile_cons] at h
    by_cases hp : p a
    · rw [if_pos hp] at h
      exact ih x xs h
    · rw [if_neg hp] at h
      cases h
      simpa using hp

theorem string_mk_eq_empty_iff (l : List Char) : String.mk l = "" ↔ l = [] := by
  constructor
  · intro h
    have hd := congrArg String.data h
    simpa using hd
  · intro h
    rw [h]

theorem pyStrip_eq_empty_iff (s : String) :
    pyStrip s = "" ↔ ∀ c ∈ s.toList, pyIsSpace c = true := by
  unfold pyStrip
  rw [string_mk_eq_empty_iff, List.reverse_eq_nil_iff, List.dropWhile_eq_nil_iff]
  constructor
  · intro h c hc
    rcases (List.mem_append.mp
        ((List.takeWhile_append_dropWhile (p := pyIsSpace)
          (l := s.toList)) ▸ hc)) with htk | hdr
    · exact List.mem_takeWhile_imp htk
    · exact h c (List.mem_reverse.mpr hdr)
  · intro h c hc
    exact h c ((List.dropWhile_sublist pyIsSpace).subset
      (List.mem_reverse.mp hc))

theorem pyStrip_not_all_space (m : String) (h : pyStrip m ≠ "") :
    (pyStrip m).toList.all pyIsSpace = false := by
  cases hcase : (m.toList.dropWhile pyIsSpace).reverse.dropWhile pyIsSpace with
  | nil =>
    exfalso
    apply h
    unfold pyStrip
    rw [hcase]
    rfl
  | cons x xs =>
    have hx : pyIsSpace x = false :=
      dropWhile_head_false pyIsSpace (m.toList.dropWhile pyIsSpace).reverse
        x xs hcase
    have hmem : x ∈ (pyStrip m).toList := by
      show x ∈ ((m.toList.dropWhile pyIsSpace).reverse.dropWhile pyIsSpace).reverse
      rw [hcase]
      exact List.mem_reverse.mpr (List.mem_cons_self x xs)
    rcases hall : (pyStrip m).toList.all pyIsSpace with _ | _
    · rfl
    · exfalso
      have := List.all_eq_true.mp hall x hmem
      rw [hx] at this
      exact Bool.false_ne_true this

theorem foldl_write_append (msgs : List String) :
    ∀ q : List String, msgs.foldl StreamToQueue.write q
      = q ++ (msgs.map pyStrip).filter (fun s => decide (s ≠ "")) := by
  induction msgs with
  | nil => intro q; simp
  | cons m ms ih =>
    intro q
    rw [List.foldl_cons, ih]
    unfold StreamToQueue.write
    by_cases h : pyStrip m = ""
    · simp [h]
    · simp [h]

/-- C1 counterexample: for a concrete job whose job function raises the
failure kickoff failed, the executor performs zero ResultStore.put calls
(the claim says exactly one, with an Error outcome), the failure is only
captured in the discarded future, and ReadResult for that key still
returns the sentinel, so the failure description is not retrievable. -/
theorem C1_counterexample_failed_job_put_not_called :
    (executorRunJob
        (create_crewai_setup (.error "kickoff failed") (some "Beach")
          (some "20000") (some "2") (some "Leisure") (some "December"))
        ⟨[], []⟩).1.puts.length = 0 ∧
    (executorRunJob
        (create_crewai_setup (.error "kickoff failed") (some "Beach")
          (some "20000") (some "2") (some "Leisure") (some "December"))
        ⟨[], []⟩).2 = some "kickoff failed" ∧
    (get_crew_result (some "Beach") (some "20000") (some "2") (some "Leisure")
        (some "December")
        (executorRunJob
          (create_crewai_setup (.error "kickoff failed") (some "Beach")
            (some "20000") (some "2") (some "Leisure") (some "December"))
          ⟨[], []⟩).1.store).1 = "Result not available yet." :=
  ⟨rfl, rfl, rfl⟩

/-- C1 (amended): when the job function raises, the worker captures the
failure in the discarded future instead of propagating it, so the process
does not crash and the pool keeps working (a later successful job still
completes and stores its result), but ResultStore.put is never called for
the failed job: the state is left unchanged and ReadResult for a key no
job has completed still returns the sentinel, so the failure description
is never retrievable. -/
theorem C1_failed_job_captured_and_stores_nothing
    (e r : String) (c b n t m c2 b2 n2 t2 m2 : FieldVal) (st : ExecState)
    (h : st.store.get (readKey c t m b n) = none) :
    (executorRunJob (create_crewai_setup (.error e) c b n t m) st).1 = st ∧
    (executorRunJob (create_crewai_setup (.error e) c b n t m) st).2
      = some e ∧
    (get_crew_result c b n t m
      (executorRunJob (create_crewai_setup (.error e) c b n t m) st).1.store).1
      = "Result not available yet." ∧
    (get_crew_result c2 b2 n2 t2 m2
      (executorRunJob (create_crewai_setup (.ok r) c2 b2 n2 t2 m2)
        (executorRunJob (create_crewai_setup (.error e) c b n t m) st).1).1.store).1
      = r := by
  refine ⟨rfl, rfl, ?_, ?_⟩
  · simp [get_crew_result, executorRunJob, create_crewai_setup, h]
  · have hg := Store.get_insert st.store (writeKey c2 t2 m2 b2 n2) r
    simp [get_crew_result, executorRunJob, create_crewai_setup, readKey,
      writeKey, Except.bind] at hg ⊢
    simp [hg]

theorem C1_failed_job_captured_and_stores_nothing_witness :
    ((⟨[], []⟩ : ExecState).store.get
        (readKey (some "Beach") (some "Leisure") (some "December")
          (some "20000") (some "2")) = none) ∧
    ((executorRunJob
        (create_crewai_setup (.error "boom") (some "Beach") (some "20000")
          (some "2") (some "Leisure") (some "December")) ⟨[], []⟩).1
       = (⟨[], []⟩ : ExecState) ∧
     (executorRunJob
        (create_crewai_setup (.error "boom") (some "Beach") (some "20000")
          (some "2") (some "Leisure") (some "December")) ⟨[], []⟩).2
       = some "boom" ∧
     (get_crew_result (some "Beach") (some "20000") (some "2") (some "Leisure")
        (some "December")
        (executorRunJob
          (create_crewai_setup (.error "boom") (some "Beach") (some "20000")
            (some "2") (some "Leisure") (some "December")) ⟨[], []⟩).1.store).1
       = "Result not available yet." ∧
     (get_crew_result (some "Hill") (some "5000") (some "4") (some "Family")
        (some "May")
        (executorRunJob
          (create_crewai_setup (.ok "plan") (some "Hill") (some "5000")
            (some "4") (some "Family") (some "May"))
          (executorRunJob
            (create_crewai_setup (.error "boom") (some "Beach") (some "20000")
              (some "2") (some "Leisure") (some "December")) ⟨[], []⟩).1).1.store).1
       = "plan") :=
  ⟨rfl, C1_failed_job_captured_and_stores_nothing "boom" "plan"
    (some "Beach") (some "20000") (some "2") (some "Leisure") (some "December")
    (some "Hill") (some "5000") (some "4") (some "Family") (some "May")
    ⟨[], []⟩ rfl⟩

/-- C2 counterexample: for a concrete valid submission the Submit handler
returns the body with status field Processing started and code 200; the
literal Processing started differs from the literal accepted stated by the
claim. -/
theorem C2_counterexample_status_literal :
    (analyze (some "Beach") (some "20000") (some "2") (some "Leisure")
        (some "December") ⟨[], []⟩).1
      = ⟨[("status", "Processing started")], 200⟩ ∧
    ("Processing started" : String) ≠ "accepted" :=
  ⟨rfl, by decide⟩

/-- C2 (amended): for every submission whose five fields are all present and
non-empty, analyze synchronously returns the accepted-status response, whose
body is the status field with literal Processing started and code 200, hands
the job arguments to the executor, and leaves the state untouched: it
returns before the job runs. -/
theorem C2_valid_submission_accepted
    (c b n t m : FieldVal) (st : ExecState)
    (hc : truthy c = true) (hb : truthy b = true) (hn : truthy n = true)
    (ht : truthy t = true) (hm : truthy m = true) :
    analyze c b n t m st
      = (⟨[("status", "Processing started")], 200⟩,
         some (c, b, n, t, m), st) := by
  simp [analyze, hc, hb, hn, ht, hm]

theorem C2_valid_submission_accepted_witness :
    truthy (some "Beach") = true ∧ truthy (some "20000") = true ∧
    truthy (some "2") = true ∧ truthy (some "Leisure") = true ∧
    truthy (some "December") = true ∧
    analyze (some "Beach") (some "20000") (some "2") (some "Leisure")
        (some "December") ⟨[], []⟩
      = (⟨[("status", "Processing started")], 200⟩,
         some (some "Beach", some "20000", some "2", some "Leisure",
               some "December"), ⟨[], []⟩) :=
  ⟨rfl, rfl, rfl, rfl, rfl,
   C2_valid_submission_accepted (some "Beach") (some "20000") (some "2")
     (some "Leisure") (some "December") ⟨[], []⟩ rfl rfl rfl rfl rfl⟩

/-- C3 counterexample: for a concrete submission with a missing category the
handler returns the body with error field There is a missing identity and
code 400; the literal There is a missing identity differs from the literal
missing field stated by the claim. -/
theorem C3_counterexample_error_literal :
    (analyze none (some "20000") (some "2") (some "Leisure") (some "December")
        ⟨[], []⟩).1
      = ⟨[("error", "There is a missing identity")], 400⟩ ∧
    ("There is a missing identity" : String) ≠ "missing field" :=
  ⟨rfl, by decide⟩

/-- C3 (amended): for every submission in which at least one of the five
fields is missing or empty, analyze synchronously returns the validation
error response, whose body is the error field with literal There is a
missing identity and code 400, creates no job, and leaves the state (hence
the result store, for every key) untouched. -/
theorem C3_missing_field_rejected
    (c b n t m : FieldVal) (st : ExecState)
    (h : truthy c = false ∨ truthy b = false ∨ truthy n = false ∨
         truthy t = false ∨ truthy m = false) :
    analyze c b n t m st
      = (⟨[("error", "There is a missing identity")], 400⟩, none, st) := by
  unfold analyze
  rcases h with h | h | h | h | h <;> simp [h]

theorem C3_missing_field_rejected_witness :
    (truthy none = false ∨ truthy (some "20000") = false ∨
     truthy (some "2") = false ∨ truthy (some "Leisure") = false ∨
     truthy (some "December") = false) ∧
    analyze none (some "20000") (some "2") (some "Leisure") (some "December")
        ⟨[], []⟩
      = (⟨[("error", "There is a missing identity")], 400⟩, none,
         (⟨[], []⟩ : ExecState)) :=
  ⟨Or.inl rfl,
   C3_missing_field_rejected none (some "20000") (some "2") (some "Leisure")
     (some "December") ⟨[], []⟩ (Or.inl rfl)⟩

/-- C4 (confirmed): the dict assignment modelling ResultStore.put overwrites
unconditionally: after any non-empty sequence of puts for the same key the
store holds exactly one entry for that key, and reading it yields the last
value written. -/
theorem C4_put_last_write_wins (s : Store) (k : JobKey) (vs : List String)
    (v : String) (h : vs.getLast? = some v) :
    ((vs.foldl (fun st w => st.insert k w) s).get k = some v) ∧
    ((vs.foldl (fun st w => st.insert k w) s).countKey k = 1) :=
  Store.foldl_insert_last k vs s v h

theorem C4_put_last_write_wins_witness :
    (["first plan", "second plan"] : List String).getLast? = some "second plan" ∧
    ((Store.get ((["first plan", "second plan"] : List String).foldl
        (fun st w => Store.insert st
          (some "Beach", some "Leisure", some "December", some "20000",
           some "2") w) [])
        (some "Beach", some "Leisure", some "December", some "20000",
         some "2") = some "second plan") ∧
     (Store.countKey ((["first plan", "second plan"] : List String).foldl
        (fun st w => Store.insert st
          (some "Beach", some "Leisure", some "December", some "20000",
           some "2") w) [])
        (some "Beach", some "Leisure", some "December", some "20000",
         some "2") = 1)) :=
  ⟨rfl, C4_put_last_write_wins []
    (some "Beach", some "Leisure", some "December", some "20000", some "2")
    ["first plan", "second plan"] "second plan" rfl⟩

/-- C5 (confirmed): the key tuple built on the write path equals the one
built on the read path for the same field values, and consequently after a
job for given fields completes successfully, ReadResult with the same five
field values returns the stored outcome. -/
theorem C5_same_key_write_read_roundtrip
    (c b n t m : FieldVal) (r : String) (st : ExecState) :
    writeKey c t m b n = readKey c t m b n ∧
    (executorRunJob (create_crewai_setup (.ok r) c b n t m) st).2 = none ∧
    (get_crew_result c b n t m
      (executorRunJob (create_crewai_setup (.ok r) c b n t m) st).1.store).1
      = r := by
  refine ⟨rfl, rfl, ?_⟩
  have hg := Store.get_insert st.store (writeKey c t m b n) r
  simp [get_crew_result, executorRunJob, create_crewai_setup, readKey,
    writeKey, Except.bind] at hg ⊢
  simp [hg]

/-- C6 (confirmed): for every key under which no job has completed, whether
never submitted or still running, ReadResult returns the sentinel Result not
available yet. -/
theorem C6_absent_key_sentinel (c b n t m : FieldVal) (store : Store)
    (h : store.get (readKey c t m b n) = none) :
    (get_crew_result c b n t m store).1 = "Result not available yet." := by
  simp [get_crew_result, h]

theorem C6_absent_key_sentinel_witness :
    (Store.get [] (readKey (some "Beach") (some "Leisure")
        (some "December") (some "20000") (some "2")) = none) ∧
    (get_crew_result (some "Beach") (some "20000") (some "2") (some "Leisure")
        (some "December") []).1 = "Result not available yet." :=
  ⟨rfl, C6_absent_key_sentinel (some "Beach") (some "20000") (some "2")
    (some "Leisure") (some "December") [] rfl⟩

/-- C7 (confirmed): write appends exactly the whitespace-trimmed text when
the stripped text is non-empty, which happens exactly when the text has a
non-whitespace character; whitespace-only text is dropped silently; every
call grows the sink by at most one entry; and no whitespace-only entry ever
appears in the drained log output of a sink built by writes. -/
theorem C7_write_trims_and_drops (q : List String) (message : String)
    (msgs : List String) :
    StreamToQueue.write q message
      = (if pyStrip message = "" then q else q ++ [pyStrip message]) ∧
    (pyStrip message = "" ↔ message.toList.all pyIsSpace = true) ∧
    (StreamToQueue.write q message).length ≤ q.length + 1 ∧
    ((get_logs (msgs.foldl StreamToQueue.write [])).1.all
        (fun e => !(e.toList.all pyIsSpace)) = true) := by
  refine ⟨?_, ?_, ?_, ?_⟩
  · unfold StreamToQueue.write
    by_cases h : pyStrip message = ""
    · simp [h]
    · simp [h]
  · rw [pyStrip_eq_empty_iff]
    rw [List.all_eq_true]
  · unfold StreamToQueue.write
    by_cases h : pyStrip message = ""
    · simp [h]
    · simp [h]
  · rw [foldl_write_append, List.nil_append, get_logs_spec]
    rw [List.all_eq_true]
    intro e he
    have hne : e ≠ "" := by simpa using List.of_mem_filter he
    have hmap := List.mem_map.mp (List.mem_of_mem_filter he)
    rcases hmap with ⟨m0, _, hm0⟩
    subst hm0
    have hfalse := pyStrip_not_all_space m0 hne
    show (!(pyStrip m0).toList.all pyIsSpace) = true
    rw [hfalse]
    rfl

/-- C8 (confirmed): get_logs removes and returns every entry currently in
the sink, oldest first, leaving the sink empty, and cannot fail; on an empty
sink it returns the empty sequence, so a second drain with no writes in
between returns the empty sequence. -/
theorem C8_drain_destructive_idempotent (q : List String) :
    get_logs q = (q, []) ∧ get_logs (get_logs q).2 = ([], []) := by
  refine ⟨get_logs_spec q, ?_⟩
  rw [get_logs_spec q]
  exact get_logs_spec []

/-- C9 (confirmed): the sink is a single shared FIFO: draining after any
sequence of write calls, from whatever jobs, returns exactly the surviving
entries (the stripped versions of the non-whitespace-only messages) in the
order the write calls occurred, globally and with no per-job separation. -/
theorem C9_fifo_global_write_order (msgs : List String) :
    (get_logs (msgs.foldl StreamToQueue.write [])).1
      = (msgs.map pyStrip).filter (fun s => decide (s ≠ "")) := by
  rw [foldl_write_append, List.nil_append, get_logs_spec]

/-- C10 (confirmed): ReadResult is total and performs no validation: for
every combination of present, empty or absent query fields (absent fields
becoming none components of the key tuple) it returns a value and leaves
the store untouched; the value is the stored outcome exactly when the
read-path key holds one, and otherwise the sentinel; when it is not the
sentinel it is an entry actually stored under that key. -/
theorem C10_read_total_no_validation (c b n t m : FieldVal) (store : Store) :
    (get_crew_result c b n t m store).2 = store ∧
    (get_crew_result c b n t m store).1
      = (store.get (readKey c t m b n)).getD "Result not available yet." ∧
    ((get_crew_result c b n t m store).1 = "Result not available yet." ∨
      (readKey c t m b n, (get_crew_result c b n t m store).1) ∈ store) := by
  refine ⟨rfl, rfl, ?_⟩
  cases hg : store.get (readKey c t m b n) with
  | none =>
    left
    simp [get_crew_result, hg]
  | some r =>
    right
    have hmem : (readKey c t m b n, r) ∈ store := by
      unfold Store.get at hg
      cases hf : store.find? (fun p => decide (p.1 = readKey c t m b n)) with
      | none =>
        rw [hf] at hg
        simp at hg
      | some p =>
        rw [hf] at hg
        simp at hg
        have hin := List.mem_of_find?_eq_some hf
        have hp := List.find?_some hf
        simp at hp
        cases p with
        | mk k1 v1 =>
          simp at hp hg
          rw [← hp, ← hg]
          exact hin
    simpa [get_crew_result, hg] using hmem
